import Mathlib

/-!
Shallow embedding of the torchio transforms under verification:
`src/torchio/transforms/lambda_transform.py` and
`src/torchio/transforms/preprocessing/spatial/bounds_transform.py`.

Python values are modelled explicitly: tensors carry a dtype tag, a shape
and a flat buffer of scalars (the scalar carrier is `Int`; the two source
files perform no arithmetic on tensor elements, so the carrier only has to
support equality). Exceptions are modelled by returning the mutated state
together with an optional error, which reflects in-place mutation plus
exception propagation of the Python code.
-/

/-- Element-type tag of a tensor (`torch.float32`, `torch.float64`, ...). -/
inductive DType where
  | float32
  | float64
  | int64
  deriving DecidableEq, Repr

/-- Rendering of a dtype as it appears in Python error messages. -/
def DType.name : DType → String
  | .float32 => "torch.float32"
  | .float64 => "torch.float64"
  | .int64 => "torch.int64"

/-- A torch tensor: dtype tag, shape, and flat row-major buffer. -/
structure Tensor where
  dtype : DType
  shape : List Nat
  buf : List Int
  deriving DecidableEq, Repr

/-- `Tensor.ndim` mirrors `tensor.ndim` in torch: the rank. -/
def Tensor.ndim (t : Tensor) : Nat := t.shape.length

/-- An arbitrary Python value, as far as the Lambda transform inspects it:
either a torch tensor or some other object carrying its type name (used by
the `isinstance` failure message). -/
inductive PyValue where
  | tensor (t : Tensor)
  | other (typeName : String)
  deriving DecidableEq, Repr

/-- Python exceptions raised by the modelled code paths. -/
inductive PyError where
  | valueError (msg : String)
  | indexError
  | runtimeError
  | conversionError
  deriving DecidableEq, Repr

/-- The `DATA` field of an image dict. The documented data model stores a
length-1 Python list holding one tensor (`dlist`); the bounds transform
assigns the tensor itself to `DATA` (`dtensor`), which is the other shape
this dynamically-typed field takes in the source. -/
inductive DataField where
  | dlist (ts : List Tensor)
  | dtensor (t : Tensor)
  deriving DecidableEq, Repr

/-- `DATA[0]`: list indexing for a list, channel slicing for a tensor
(`t[0]` is the first block of the buffer with the leading axis dropped).
`none` models the `IndexError` cases. -/
def DataField.getitem0 : DataField → Option Tensor
  | .dlist ts => ts.head?
  | .dtensor t =>
    match t.shape with
    | [] => none
    | n :: rest => if n = 0 then none else some ⟨t.dtype, rest, t.buf.take rest.prod⟩

/-- `DATA[0] = r`: list element assignment for a list; in-place slice
assignment for a tensor (modelled for an exactly matching slice shape,
`none` standing for the shape-mismatch `RuntimeError`). -/
def DataField.setitem0 (r : Tensor) : DataField → Option DataField
  | .dlist ts =>
    match ts with
    | [] => none
    | _ :: tl => some (.dlist (r :: tl))
  | .dtensor t =>
    match t.shape with
    | [] => none
    | n :: rest =>
      if n = 0 then none
      else if r.shape = rest then
        some (.dtensor ⟨t.dtype, n :: rest, r.buf ++ t.buf.drop rest.prod⟩)
      else none

/-- `len(DATA)`: list length for a list, leading-axis size for a tensor. -/
def DataField.len : DataField → Option Nat
  | .dlist ts => some ts.length
  | .dtensor t => t.shape.head?

/-- A 4x4 affine matrix; the two source files move it around without
computing on it, so rational entries suffice here. -/
abbrev Affine := List (List ℚ)

/-- An image dict: the `DATA`, `AFFINE` and `TYPE` fields read and written
by the two transforms. -/
structure ImageDict where
  DATA : DataField
  AFFINE : Affine
  TYPE : String
  deriving DecidableEq, Repr

/-- A sample entry. Modelled from the spec: the `is_image_dict` predicate
(defined in `torchio/utils.py`, outside the given sources) recognizes which
mapping values are image dicts; the spec describes it as a capability check
separating image entries from pass-through entries, so entries are a tagged
union here. -/
inductive Entry where
  | image (d : ImageDict)
  | nonImage (v : PyValue)
  deriving DecidableEq, Repr

/-- A sample: a Python dict from image names to entries, in iteration
order. -/
abbrev Sample := List (String × Entry)

/-! ## The Lambda transform (`lambda_transform.py`) -/

/-- The `Lambda` transform state: the user function and the optional type
filter, both set at construction. The user function receives a tensor and
may return an arbitrary Python value. -/
structure Lambda where
  function : Tensor → PyValue
  types_to_apply : Option (List String)

/-- Whether the per-image filter lets an image through: apply to all when
`types_to_apply` is `None`, otherwise require membership of `TYPE`. -/
def Lambda.passesFilter (lam : Lambda) (d : ImageDict) : Bool :=
  match lam.types_to_apply with
  | none => true
  | some ts => ts.contains d.TYPE

/-- The loop body of `Lambda.apply_transform` for one image dict: filter,
read `DATA[0]`, call the function, run the three validations in source
order, and only then write `DATA[0]`. Returns the (possibly mutated) image
dict together with the raised exception, if any. -/
def Lambda.processImage (lam : Lambda) (d : ImageDict) : ImageDict × Option PyError :=
  if lam.passesFilter d then
    match d.DATA.getitem0 with
    | none => (d, some .indexError)
    | some function_arg =>
      match lam.function function_arg with
      | .other typeName =>
        (d, some (.valueError
          ("The returned value from the callable argument must be of type torch.Tensor, not "
            ++ typeName)))
      | .tensor result =>
        if result.dtype ≠ DType.float32 then
          (d, some (.valueError
            ("The data type of the returned value must be of type torch.float32, not "
              ++ result.dtype.name)))
        else if result.ndim ≠ function_arg.ndim then
          (d, some (.valueError
            ("The number of dimensions of the returned value must be "
              ++ toString function_arg.ndim ++ ", not " ++ toString result.ndim)))
        else
          match d.DATA.setitem0 result with
          | none => (d, some .runtimeError)
          | some df => ({ d with DATA := df }, none)
  else (d, none)

/-- The loop of `Lambda.apply_transform` over the sample values. When an
image raises, the loop stops: entries before it keep their mutated state,
the failing and later entries keep their current state, and the error is
reported. -/
def Lambda.runLoop (lam : Lambda) : Sample → Sample × Option PyError
  | [] => ([], none)
  | (k, Entry.nonImage v) :: rest =>
    let (rest2, err) := lam.runLoop rest
    ((k, Entry.nonImage v) :: rest2, err)
  | (k, Entry.image d) :: rest =>
    match lam.processImage d with
    | (d2, some e) => ((k, Entry.image d2) :: rest, some e)
    | (d2, none) =>
      let (rest2, err) := lam.runLoop rest
      ((k, Entry.image d2) :: rest2, err)

/-- `Lambda.apply_transform`: returns the sample on success, propagates the
exception otherwise. -/
def Lambda.apply_transform (lam : Lambda) (s : Sample) : Except PyError Sample :=
  match lam.runLoop s with
  | (s2, none) => .ok s2
  | (_, some e) => .error e

/-! ## Bounds parsing (`bounds_transform.py`) -/

/-- The argument of `parse_bounds`: either a non-iterable integer (whose
`tuple(...)` raises `TypeError`, caught and replaced by a 1-tuple) or an
iterable of integers. -/
inductive BoundsInput where
  | scalar (n : Int)
  | seq (l : List Int)
  deriving DecidableEq, Repr

/-- The `try: tuple(...) except TypeError: (x,)` normalization. -/
def BoundsInput.toTuple : BoundsInput → List Int
  | .scalar n => [n]
  | .seq l => l

/-- Python repr of a tuple of ints, as interpolated into the error
message. -/
def pyTupleStr (l : List Int) : String :=
  "(" ++ String.intercalate ", " (l.map toString) ++ (if l.length = 1 then ",)" else ")")

/-- The error message of `parse_bounds`, interpolating the normalized
tuple. -/
def boundsErrorMsg (t : List Int) : String :=
  "Bounds parameter must be an integer or a tuple of 3 or 6 integers, not " ++ pyTupleStr t

/-- `BoundsTransform.parse_bounds`: length 6 passes through, length 1 is
repeated six times (`6 * tuple`), length 3 is elementwise doubled
(`np.repeat(t, 2)`), anything else raises `ValueError`. -/
def parse_bounds (bp : BoundsInput) : Except PyError (List Int) :=
  let t := bp.toTuple
  if t.length = 6 then .ok t
  else if t.length = 1 then .ok ((List.replicate 6 t).flatten)
  else if t.length = 3 then .ok ((t.map fun x => [x, x]).flatten)
  else .error (.valueError (boundsErrorMsg t))

/-! ## The bounds transform (`bounds_transform.py`) -/

/-- The `BoundsTransform` state: the canonical 6-tuple produced by
`parse_bounds` at construction. -/
structure BoundsTransform where
  bounds_parameters : List Int
  deriving DecidableEq, Repr

/-- `BoundsTransform.__init__`: parses the bounds immediately, so an
invalid specification raises at construction time. -/
def BoundsTransform.init (bp : BoundsInput) : Except PyError BoundsTransform :=
  (parse_bounds bp).map fun b => ⟨b⟩

/-- `l[::2]`: every other element starting at index 0. -/
def everyOther : List Int → List Int
  | [] => []
  | [x] => [x]
  | x :: _ :: rest => x :: everyOther rest

/-- Modelled from the spec: the native image representation of the
conversion layer (`nib_to_sitk` and `sitk_to_nib` live outside the given
sources). Per the spec it carries a 3D voxel grid with origin, spacing and
direction metadata; here the grid sizes are explicit (3D by construction),
the buffer is kept verbatim and the affine-derived metadata is kept
opaquely as the affine it came from. The geometric content of the
conversion (decomposition, sign and axis-order correction) is modelled
separately over the reals below. -/
structure NativeImage where
  sizeX : Nat
  sizeY : Nat
  sizeZ : Nat
  vox : List Int
  meta : Affine
  deriving DecidableEq, Repr

/-- Modelled from the spec: `nib_to_sitk`, tensor plus affine to native
image. The spec fixes its input to a 3D (channel-squeezed) tensor; `none`
models the failure on any other rank. -/
def nib_to_sitk (t : Tensor) (a : Affine) : Option NativeImage :=
  match t.shape with
  | [x, y, z] => some ⟨x, y, z, t.buf, a⟩
  | _ => none

/-- Modelled from the spec: `sitk_to_nib`, native image back to a 3D
float32 data array plus the affine reconstructed from the metadata. -/
def sitk_to_nib (m : NativeImage) : Tensor × Affine :=
  (⟨DType.float32, [m.sizeX, m.sizeY, m.sizeZ], m.vox⟩, m.meta)

/-- `torch.from_numpy(data).unsqueeze(0)`: prepend a size-1 axis. -/
def Tensor.unsqueeze0 (t : Tensor) : Tensor :=
  ⟨t.dtype, 1 :: t.shape, t.buf⟩

/-- The loop body of `BoundsTransform.apply_transform` for one image dict:
convert `DATA[0]` plus `AFFINE` to a native image, run the
subclass-supplied `bounds_function`, convert back, and overwrite `DATA`
(with the unsqueezed tensor itself) and `AFFINE`. `g` is the abstract
`bounds_function` collaborator. -/
def BoundsTransform.processImage (g : NativeImage → List Int → List Int → NativeImage)
    (low high : List Int) (d : ImageDict) : ImageDict × Option PyError :=
  match d.DATA.getitem0 with
  | none => (d, some .indexError)
  | some t =>
    match nib_to_sitk t d.AFFINE with
    | none => (d, some .conversionError)
    | some image =>
      let result := g image low high
      let (dataT, affine) := sitk_to_nib result
      let tensor := dataT.unsqueeze0
      ({ d with DATA := .dtensor tensor, AFFINE := affine }, none)

/-- The loop of `BoundsTransform.apply_transform` over the sample values,
with the same in-place mutation and exception behavior as the Lambda
loop. -/
def BoundsTransform.runLoop (g : NativeImage → List Int → List Int → NativeImage)
    (low high : List Int) : Sample → Sample × Option PyError
  | [] => ([], none)
  | (k, Entry.nonImage v) :: rest =>
    let (rest2, err) := BoundsTransform.runLoop g low high rest
    ((k, Entry.nonImage v) :: rest2, err)
  | (k, Entry.image d) :: rest =>
    match BoundsTransform.processImage g low high d with
    | (d2, some e) => ((k, Entry.image d2) :: rest, some e)
    | (d2, none) =>
      let (rest2, err) := BoundsTransform.runLoop g low high rest
      ((k, Entry.image d2) :: rest2, err)

/-- `BoundsTransform.apply_transform`: split the stored 6-tuple into low
(`[::2]`) and high (`[1::2]`) bounds and run the loop. -/
def BoundsTransform.apply_transform (b : BoundsTransform)
    (g : NativeImage → List Int → List Int → NativeImage) (s : Sample) :
    Except PyError Sample :=
  let low := everyOther b.bounds_parameters
  let high := everyOther b.bounds_parameters.tail
  match BoundsTransform.runLoop g low high s with
  | (s2, none) => .ok s2
  | (_, some e) => .error e

/-! ## Spec-modelled geometric conversion layer (over the reals)

The geometric content of `nib_to_sitk` and `sitk_to_nib` is outside the
given sources; the spec (section 4.2) describes it: decompose the affine
into origin (translation column), spacing (column norms of the 3x3 block)
and direction cosines (normalized columns), applying a fixed sign flip on
two of the three physical axes and reversing the voxel axis order; the
inverse recomposes the affine the same way. The definitions below are
modelled from the spec over exact reals. -/

/-- Modelled from the spec: a 3D tensor with its voxel grid. -/
structure TensorR where
  dims : Fin 3 → Nat
  vox : Nat → Nat → Nat → ℝ

/-- Modelled from the spec: the 4x4 affine as its 3x3 block plus the
translation column. -/
structure AffineR where
  block : Fin 3 → Fin 3 → ℝ
  origin : Fin 3 → ℝ

/-- Modelled from the spec: the native image representation carrying voxel
data (in reversed axis order) plus origin, spacing and direction. -/
structure NativeR where
  ndims : Fin 3 → Nat
  nvox : Nat → Nat → Nat → ℝ
  spacing : Fin 3 → ℝ
  direction : Fin 3 → Fin 3 → ℝ
  norigin : Fin 3 → ℝ

/-- Euclidean norm of an affine column. -/
noncomputable def colNorm (c : Fin 3 → ℝ) : ℝ := Real.sqrt (∑ i, c i ^ 2)

/-- The fixed sign correction: the two ecosystems disagree on the sign of
the first two physical axes. -/
def flipSgn (i : Fin 3) : ℝ := if i.val < 2 then -1 else 1

/-- Axis-order reversal between the two ecosystems. -/
def axisRev (i : Fin 3) : Fin 3 := ⟨2 - i.val, by omega⟩

/-- Modelled from the spec: tensor plus affine to native image (spec
section 4.2, tensor to native direction). -/
noncomputable def tensor_to_native (t : TensorR) (a : AffineR) : NativeR :=
  { ndims := fun i => t.dims (axisRev i)
    nvox := fun x y z => t.vox z y x
    spacing := fun j => colNorm (fun i => a.block i j)
    direction := fun i j => flipSgn i * (a.block i j / colNorm (fun k => a.block k j))
    norigin := fun i => flipSgn i * a.origin i }

/-- Modelled from the spec: native image back to tensor plus affine (spec
section 4.2, native to tensor direction). -/
noncomputable def native_to_tensor (m : NativeR) : TensorR × AffineR :=
  ({ dims := fun i => m.ndims (axisRev i)
     vox := fun x y z => m.nvox z y x },
   { block := fun i j => flipSgn i * m.direction i j * m.spacing j
     origin := fun i => flipSgn i * m.norigin i })

/-! ## Invariant predicates on samples -/

/-- The documented ImageDict invariant on one tensor: exactly 4 dimensions
with a leading channel dimension of size 1. -/
def tensorInv4 (t : Tensor) : Bool := t.ndim == 4 && t.shape.head? == some 1

/-- The documented ImageDict data-model invariant as the claim states it:
`DATA` is a length-1 sequence and `DATA[0]` is a 4D tensor with channel
size 1. -/
def ImageDict.invFull (d : ImageDict) : Bool :=
  d.DATA.len == some 1 &&
    (match d.DATA.getitem0 with
     | some t => tensorInv4 t
     | none => false)

/-- The documented invariant over a whole sample. -/
def sampleInvFull (s : Sample) : Bool :=
  s.all fun kv =>
    match kv.2 with
    | .image d => d.invFull
    | .nonImage _ => true

/-- The dimensional part of the invariant: `DATA` has length 1 and
`DATA[0]` has exactly 4 dimensions (channel size left unconstrained). -/
def ImageDict.inv4d (d : ImageDict) : Bool :=
  d.DATA.len == some 1 &&
    (match d.DATA.getitem0 with
     | some t => t.ndim == 4
     | none => false)

/-- The dimensional invariant over a whole sample. -/
def sampleInv4 (s : Sample) : Bool :=
  s.all fun kv =>
    match kv.2 with
    | .image d => d.inv4d
    | .nonImage _ => true

/-- After the bounds transform: every image stores the 4D result tensor
directly in `DATA`, with leading dimension of size 1. -/
def boundsShapeOK (s : Sample) : Bool :=
  s.all fun kv =>
    match kv.2 with
    | .image d =>
      match d.DATA with
      | .dtensor t => t.ndim == 4 && t.shape.head? == some 1
      | .dlist _ => false
    | .nonImage _ => true

/-! ## Helper lemmas -/

/-- Writing back the value read at index 0 leaves the data field
unchanged. -/
lemma DataField.setitem0_getitem0 (df : DataField) (t : Tensor)
    (h : df.getitem0 = some t) : df.setitem0 t = some df := by
  cases df with
  | dlist ts =>
    cases ts with
    | nil => simp [DataField.getitem0] at h
    | cons a tl =>
      simp [DataField.getitem0] at h
      subst h
      rfl
  | dtensor tt =>
    obtain ⟨dt, sh, buf⟩ := tt
    cases sh with
    | nil => simp [DataField.getitem0] at h
    | cons n rest =>
      by_cases hn : n = 0
      · simp [DataField.getitem0, hn] at h
      · simp [DataField.getitem0, hn] at h
        subst h
        simp [DataField.setitem0, hn, List.take_append_drop]

/-- Inversion of a successful Lambda loop body: either the image was
filtered out, or the function result passed the three checks and was
written at index 0. -/
lemma Lambda.processImage_success_inv {lam : Lambda} {d d2 : ImageDict}
    (h : lam.processImage d = (d2, none)) :
    (lam.passesFilter d = false ∧ d2 = d)
    ∨ ∃ arg r df, lam.passesFilter d = true ∧ d.DATA.getitem0 = some arg
        ∧ lam.function arg = PyValue.tensor r ∧ r.dtype = DType.float32
        ∧ r.ndim = arg.ndim ∧ d.DATA.setitem0 r = some df
        ∧ d2 = { d with DATA := df } := by
  unfold Lambda.processImage at h
  repeat' split at h
  all_goals simp_all

/-! ## Claim C1 -/

/-- Claim C1: parse_bounds maps a non-iterable integer n to the 6-tuple
(n,n,n,n,n,n), a 3-sequence (a,b,c) to (a,a,b,b,c,c), and returns any
6-sequence unchanged. -/
theorem parse_bounds_normalizes :
    (∀ n : Int, parse_bounds (BoundsInput.scalar n) = Except.ok [n, n, n, n, n, n])
    ∧ (∀ a b c : Int,
        parse_bounds (BoundsInput.seq [a, b, c]) = Except.ok [a, a, b, b, c, c])
    ∧ (∀ l : List Int, l.length = 6 → parse_bounds (BoundsInput.seq l) = Except.ok l) := by
  refine ⟨fun n => rfl, fun a b c => rfl, fun l hl => ?_⟩
  simp [parse_bounds, BoundsInput.toTuple, hl]

/-- Witness for C1 at concrete inputs of each of the three shapes. -/
theorem parse_bounds_normalizes_w :
    parse_bounds (BoundsInput.scalar 5) = Except.ok [5, 5, 5, 5, 5, 5]
    ∧ parse_bounds (BoundsInput.seq [1, 2, 3]) = Except.ok [1, 1, 2, 2, 3, 3]
    ∧ parse_bounds (BoundsInput.seq [1, 2, 3, 4, 5, 6]) = Except.ok [1, 2, 3, 4, 5, 6] :=
  ⟨parse_bounds_normalizes.1 5, parse_bounds_normalizes.2.1 1 2 3,
    parse_bounds_normalizes.2.2 [1, 2, 3, 4, 5, 6] rfl⟩

/-! ## Claim C4 -/

/-- Claim C4: constructing a BoundsTransform from a bounds specification
whose normalized length is not 1, 3 or 6 makes the constructor itself
return a ValueError whose message interpolates the invalid value; nothing
is deferred to apply time. -/
theorem bounds_init_rejects_bad_length (bp : BoundsInput)
    (h1 : bp.toTuple.length ≠ 1) (h3 : bp.toTuple.length ≠ 3)
    (h6 : bp.toTuple.length ≠ 6) :
    BoundsTransform.init bp =
      Except.error (PyError.valueError (boundsErrorMsg bp.toTuple)) := by
  unfold BoundsTransform.init parse_bounds
  simp [h1, h3, h6, Except.map]

/-- Witness for C4 at a 2-tuple. -/
theorem bounds_init_rejects_bad_length_w :
    BoundsTransform.init (BoundsInput.seq [1, 2]) =
      Except.error (PyError.valueError (boundsErrorMsg [1, 2])) :=
  bounds_init_rejects_bad_length (BoundsInput.seq [1, 2])
    (by decide) (by decide) (by decide)

/-- The fully applied case of the Lambda loop body on a list-shaped data
field: all checks pass and index 0 is overwritten with the result. -/
lemma Lambda.processImage_applied (lam : Lambda) (d : ImageDict) (arg r : Tensor)
    (tl : List Tensor) (hF : lam.passesFilter d = true)
    (hD : d.DATA = DataField.dlist (arg :: tl))
    (hfn : lam.function arg = PyValue.tensor r) (hdt : r.dtype = DType.float32)
    (hnd : r.ndim = arg.ndim) :
    lam.processImage d = ({ d with DATA := DataField.dlist (r :: tl) }, none) := by
  unfold Lambda.processImage
  simp [hF, hD, DataField.getitem0, hfn, hdt, hnd, DataField.setitem0]

/-! ## Claim C3 -/

/-- Claim C3: for an image that passes the type filter, the result of the
user function is validated in a fixed order — is it a tensor, is its dtype
float32, does its rank equal the input rank — raising a ValueError whose
message names the expected and the actual value at the first violation,
and raising nothing when all three checks pass. -/
theorem lambda_validation_order (lam : Lambda) (d : ImageDict) (arg : Tensor)
    (tl : List Tensor) (hD : d.DATA = DataField.dlist (arg :: tl))
    (hF : lam.passesFilter d = true) :
    (∀ ty, lam.function arg = PyValue.other ty →
      lam.processImage d = (d, some (PyError.valueError
        ("The returned value from the callable argument must be of type torch.Tensor, not "
          ++ ty))))
    ∧ (∀ r, lam.function arg = PyValue.tensor r → r.dtype ≠ DType.float32 →
      lam.processImage d = (d, some (PyError.valueError
        ("The data type of the returned value must be of type torch.float32, not "
          ++ r.dtype.name))))
    ∧ (∀ r, lam.function arg = PyValue.tensor r → r.dtype = DType.float32 →
      r.ndim ≠ arg.ndim →
      lam.processImage d = (d, some (PyError.valueError
        ("The number of dimensions of the returned value must be "
          ++ toString arg.ndim ++ ", not " ++ toString r.ndim))))
    ∧ (∀ r, lam.function arg = PyValue.tensor r → r.dtype = DType.float32 →
      r.ndim = arg.ndim →
      lam.processImage d = ({ d with DATA := DataField.dlist (r :: tl) }, none)) := by
  have hget : d.DATA.getitem0 = some arg := by
    rw [hD]; rfl
  refine ⟨?_, ?_, ?_, ?_⟩
  · intro ty hfn
    unfold Lambda.processImage
    simp [hF, hget, hfn]
  · intro r hfn hdt
    unfold Lambda.processImage
    simp [hF, hget, hfn, hdt]
  · intro r hfn hdt hnd
    unfold Lambda.processImage
    simp [hF, hget, hfn, hdt, hnd]
  · intro r hfn hdt hnd
    exact Lambda.processImage_applied lam d arg r tl hF hD hfn hdt hnd

/-- Witness for C3: a concrete image and function for which all three
checks pass and the data is overwritten without an error. -/
theorem lambda_validation_order_w :
    Lambda.processImage ⟨fun t => PyValue.tensor t, none⟩
        ⟨DataField.dlist [⟨DType.float32, [1, 1, 1, 1], [0]⟩], [], "intensity"⟩ =
      (⟨DataField.dlist [⟨DType.float32, [1, 1, 1, 1], [0]⟩], [], "intensity"⟩, none) :=
  (lambda_validation_order ⟨fun t => PyValue.tensor t, none⟩
      ⟨DataField.dlist [⟨DType.float32, [1, 1, 1, 1], [0]⟩], [], "intensity"⟩
      ⟨DType.float32, [1, 1, 1, 1], [0]⟩ [] rfl rfl).2.2.2
    ⟨DType.float32, [1, 1, 1, 1], [0]⟩ rfl rfl rfl

/-! ## Claim C10 -/

/-- Claim C10: the three validation checks all run before the write to
DATA[0]; whenever the Lambda loop body raises, the image dict it returns
is exactly the one it was given (the failing image keeps its original
data). -/
theorem lambda_write_after_checks (lam : Lambda) (d d2 : ImageDict) (e : PyError)
    (h : lam.processImage d = (d2, some e)) : d2 = d := by
  unfold Lambda.processImage at h
  repeat' split at h
  all_goals simp_all

/-- Witness for C10: a function returning a non-tensor leaves the failing
image dict untouched. -/
theorem lambda_write_after_checks_w :
    (Lambda.processImage ⟨fun _ => PyValue.other "int", none⟩
        ⟨DataField.dlist [⟨DType.float32, [1, 1, 1, 1], [0]⟩], [], "t"⟩).1 =
      ⟨DataField.dlist [⟨DType.float32, [1, 1, 1, 1], [0]⟩], [], "t"⟩ :=
  lambda_write_after_checks ⟨fun _ => PyValue.other "int", none⟩
    ⟨DataField.dlist [⟨DType.float32, [1, 1, 1, 1], [0]⟩], [], "t"⟩ _
    (PyError.valueError
      ("The returned value from the callable argument must be of type torch.Tensor, not "
        ++ "int")) rfl

/-! ## Claim C8 -/

/-- `Lambda(lambda x: x)`: the identity user function, no type filter. -/
def lambdaIdentity : Lambda := ⟨fun t => PyValue.tensor t, none⟩

/-- One sample entry holds a float32 tensor at `DATA[0]`. -/
def entryFloat32 : Entry → Bool
  | .image d =>
    match d.DATA.getitem0 with
    | some t => t.dtype == DType.float32
    | none => false
  | .nonImage _ => true

/-- Every image of the sample holds a float32 tensor at `DATA[0]`. -/
def sampleFloat32 (s : Sample) : Bool := s.all fun kv => entryFloat32 kv.2

/-- The Lambda loop body with the identity function leaves a float32 image
dict unchanged and raises nothing. -/
lemma processImage_identity (d : ImageDict) (t : Tensor)
    (hget : d.DATA.getitem0 = some t) (hdt : t.dtype = DType.float32) :
    Lambda.processImage lambdaIdentity d = (d, none) := by
  unfold Lambda.processImage
  simp [Lambda.passesFilter, lambdaIdentity, hget, hdt,
    DataField.setitem0_getitem0 _ _ hget]

/-- Claim C8: applying Lambda built from the identity function to a sample
whose images hold float32 tensors raises no error and returns the sample
with every tensor unchanged. -/
theorem lambda_identity_noop (s : Sample) (h : sampleFloat32 s = true) :
    Lambda.runLoop lambdaIdentity s = (s, none) := by
  induction s with
  | nil => rfl
  | cons kv rest ih =>
    obtain ⟨k, ent⟩ := kv
    rw [sampleFloat32, List.all_cons, Bool.and_eq_true] at h
    obtain ⟨h1, h2⟩ := h
    cases ent with
    | nonImage v =>
      simp [Lambda.runLoop, ih h2]
    | image d =>
      rw [entryFloat32] at h1
      rcases hg : d.DATA.getitem0 with _ | t
      · rw [hg] at h1; cases h1
      · rw [hg] at h1
        have hdt : t.dtype = DType.float32 := by
          simpa using h1
        simp [Lambda.runLoop, processImage_identity d t hg hdt, ih h2]

/-- Concrete float32 sample for the C8 witness. -/
def sampleW8 : Sample :=
  [("mri", Entry.image ⟨DataField.dlist [⟨DType.float32, [1, 2, 2, 2], [5, 5, 5, 5, 5, 5, 5, 5]⟩],
      [], "intensity"⟩),
   ("note", Entry.nonImage (PyValue.other "str"))]

/-- Witness for C8 on a concrete sample. -/
theorem lambda_identity_noop_w :
    Lambda.runLoop lambdaIdentity sampleW8 = (sampleW8, none) :=
  lambda_identity_noop sampleW8 (by decide)

/-! ## Claim C5 -/

/-- Per-entry effect of the Lambda loop on a sample value. -/
def Entry.stepWith (lam : Lambda) : Entry → Entry
  | .image d => .image (lam.processImage d).1
  | .nonImage v => .nonImage v

/-- Claim C5: Lambda applies the user function exactly to the recognized
images whose TYPE passes the filter (all images when the filter is None):
filtered-out images are returned untouched with no error, a passing image
gets the function result written at `DATA[0]`, and on a run without error
the whole sample is the entrywise image of that per-entry step (non-image
entries unchanged). -/
theorem lambda_type_filter :
    (∀ (lam : Lambda) (d : ImageDict), lam.passesFilter d = false →
      lam.processImage d = (d, none))
    ∧ (∀ (lam : Lambda) (s : Sample), (Lambda.runLoop lam s).2 = none →
      (Lambda.runLoop lam s).1 = s.map fun kv => (kv.1, Entry.stepWith lam kv.2))
    ∧ (∀ (lam : Lambda) (d : ImageDict) (arg r : Tensor) (tl : List Tensor),
      lam.passesFilter d = true → d.DATA = DataField.dlist (arg :: tl) →
      lam.function arg = PyValue.tensor r → r.dtype = DType.float32 →
      r.ndim = arg.ndim →
      lam.processImage d = ({ d with DATA := DataField.dlist (r :: tl) }, none)) := by
  refine ⟨?_, ?_, ?_⟩
  · intro lam d hF
    unfold Lambda.processImage
    simp [hF]
  · intro lam s
    induction s with
    | nil => intro _; rfl
    | cons kv rest ih =>
      obtain ⟨k, ent⟩ := kv
      cases ent with
      | nonImage v =>
        intro h
        rw [Lambda.runLoop] at h ⊢
        simp only [List.map_cons]
        rw [Entry.stepWith]
        simp only at h ⊢
        rw [ih h]
      | image d =>
        intro h
        rcases hp : lam.processImage d with ⟨d2, err⟩
        cases err with
        | some e =>
          rw [Lambda.runLoop] at h
          simp [hp] at h
        | none =>
          rw [Lambda.runLoop] at h ⊢
          simp only [hp, List.map_cons] at h ⊢
          rw [Entry.stepWith, hp]
          simp only
          rw [ih h]
  · intro lam d arg r tl hF hD hfn hdt hnd
    exact Lambda.processImage_applied lam d arg r tl hF hD hfn hdt hnd

/-- Witness for C5: a two-image sample with an intensity filter; the label
image is untouched, the intensity image is overwritten, no error. -/
theorem lambda_type_filter_w :
    Lambda.processImage ⟨fun _ => PyValue.tensor ⟨DType.float32, [1, 1, 1, 1], [9]⟩,
        some ["intensity"]⟩
      ⟨DataField.dlist [⟨DType.float32, [1, 1, 1, 1], [3]⟩], [], "label"⟩ =
      (⟨DataField.dlist [⟨DType.float32, [1, 1, 1, 1], [3]⟩], [], "label"⟩, none) :=
  lambda_type_filter.1 ⟨fun _ => PyValue.tensor ⟨DType.float32, [1, 1, 1, 1], [9]⟩,
      some ["intensity"]⟩
    ⟨DataField.dlist [⟨DType.float32, [1, 1, 1, 1], [3]⟩], [], "label"⟩ (by decide)

/-! ## Claim C6 -/

/-- Claim C6: Lambda is not atomic over the sample. If the images before a
failing one processed without error and the loop body fails on image d
(leaving d itself unchanged), then the whole loop returns the prefix in
its processed (already mutated) state, the failing image and everything
after it untouched, and propagates the error. -/
theorem lambda_partial_mutation (lam : Lambda) (pre pre2 : Sample) (k : String)
    (d : ImageDict) (e : PyError) (post : Sample)
    (hpre : Lambda.runLoop lam pre = (pre2, none))
    (hfail : lam.processImage d = (d, some e)) :
    Lambda.runLoop lam (pre ++ (k, Entry.image d) :: post) =
      (pre2 ++ (k, Entry.image d) :: post, some e) := by
  induction pre generalizing pre2 with
  | nil =>
    rw [Lambda.runLoop] at hpre
    obtain ⟨rfl, -⟩ := Prod.mk.injEq .. ▸ hpre
    simp only [List.nil_append]
    rw [Lambda.runLoop, hfail]
  | cons kv rest ih =>
    obtain ⟨key, ent⟩ := kv
    cases ent with
    | nonImage v =>
      rw [Lambda.runLoop] at hpre
      rcases hr : Lambda.runLoop lam rest with ⟨rest2, err⟩
      rw [hr] at hpre
      simp only [Prod.mk.injEq] at hpre
      obtain ⟨hpre1, hpre2⟩ := hpre
      subst hpre1
      subst hpre2
      simp only [List.cons_append]
      rw [Lambda.runLoop, ih rest2 hr]
    | image dd =>
      rw [Lambda.runLoop] at hpre
      rcases hp : lam.processImage dd with ⟨dd2, perr⟩
      rw [hp] at hpre
      cases perr with
      | some pe => simp at hpre
      | none =>
        rcases hr : Lambda.runLoop lam rest with ⟨rest2, err⟩
        rw [hr] at hpre
        simp only [Prod.mk.injEq] at hpre
        obtain ⟨hpre1, hpre2⟩ := hpre
        subst hpre1
        subst hpre2
        simp only [List.cons_append]
        rw [Lambda.runLoop, hp, ih rest2 hr]

/-- Concrete ingredients for the C6 witness: the function mutates the
first image (buffer [7] becomes [9]) and returns a non-tensor for the
second (buffer [8]). -/
def lamW6 : Lambda :=
  ⟨fun t => if t.buf = [7] then PyValue.tensor ⟨DType.float32, [1, 1, 1, 1], [9]⟩
    else PyValue.other "int", none⟩

/-- First image of the C6 witness sample, before mutation. -/
def dW6a : ImageDict := ⟨DataField.dlist [⟨DType.float32, [1, 1, 1, 1], [7]⟩], [], "intensity"⟩

/-- Second image of the C6 witness sample; the function fails on it. -/
def dW6b : ImageDict := ⟨DataField.dlist [⟨DType.float32, [1, 1, 1, 1], [8]⟩], [], "intensity"⟩

/-- Witness for C6: the loop over [first, failing] returns the first image
mutated, the failing one untouched, and the error. -/
theorem lambda_partial_mutation_w :
    Lambda.runLoop lamW6 [("a", Entry.image dW6a), ("b", Entry.image dW6b)] =
      ([("a", Entry.image ⟨DataField.dlist [⟨DType.float32, [1, 1, 1, 1], [9]⟩], [], "intensity"⟩),
        ("b", Entry.image dW6b)],
        some (PyError.valueError
          ("The returned value from the callable argument must be of type torch.Tensor, not "
            ++ "int"))) :=
  lambda_partial_mutation lamW6 [("a", Entry.image dW6a)]
    [("a", Entry.image ⟨DataField.dlist [⟨DType.float32, [1, 1, 1, 1], [9]⟩], [], "intensity"⟩)]
    "b" dW6b
    (PyError.valueError
      ("The returned value from the callable argument must be of type torch.Tensor, not "
        ++ "int"))
    [] (by decide) (by decide)

/-! ## Claim C7 -/

/-- The frame relation on one entry: non-images are equal, images keep
their TYPE. -/
def entryFrame : Entry → Entry → Prop
  | .nonImage v, .nonImage w => v = w
  | .image d, .image d2 => d.TYPE = d2.TYPE
  | _, _ => False

/-- The frame relation entry by entry over a sample: same keys in the same
order, non-image entries unchanged, image TYPE unchanged. -/
def sampleFrame (s s2 : Sample) : Prop :=
  List.Forall₂ (fun a b => a.1 = b.1 ∧ entryFrame a.2 b.2) s s2

/-- The frame relation is reflexive. -/
lemma sampleFrame_refl (s : Sample) : sampleFrame s s := by
  induction s with
  | nil => exact List.Forall₂.nil
  | cons kv rest ih =>
    refine List.Forall₂.cons ⟨rfl, ?_⟩ ih
    cases kv.2 <;> rfl

/-- The Lambda loop body never changes TYPE. -/
lemma lambdaBody_TYPE (lam : Lambda) (d : ImageDict) :
    (lam.processImage d).1.TYPE = d.TYPE := by
  unfold Lambda.processImage
  repeat' split
  all_goals rfl

/-- The bounds loop body never changes TYPE. -/
lemma boundsBody_TYPE (g : NativeImage → List Int → List Int → NativeImage)
    (low high : List Int) (d : ImageDict) :
    (BoundsTransform.processImage g low high d).1.TYPE = d.TYPE := by
  unfold BoundsTransform.processImage
  repeat' split
  all_goals rfl

/-- Claim C7: both transforms return the sample they were given entry by
entry — same keys in the same order, entries not recognized as images
unchanged, and the TYPE of every image unchanged — whether or not the run
raises. -/
theorem transforms_frame :
    (∀ (lam : Lambda) (s : Sample), sampleFrame s (Lambda.runLoop lam s).1)
    ∧ (∀ (g : NativeImage → List Int → List Int → NativeImage) (low high : List Int)
        (s : Sample), sampleFrame s (BoundsTransform.runLoop g low high s).1) := by
  constructor
  · intro lam s
    induction s with
    | nil => exact List.Forall₂.nil
    | cons kv rest ih =>
      obtain ⟨k, ent⟩ := kv
      cases ent with
      | nonImage v =>
        rw [Lambda.runLoop]
        exact List.Forall₂.cons ⟨rfl, rfl⟩ ih
      | image d =>
        rw [Lambda.runLoop]
        rcases hp : lam.processImage d with ⟨d2, perr⟩
        have hT : d.TYPE = d2.TYPE := by
          have := lambdaBody_TYPE lam d
          rw [hp] at this
          exact this.symm
        cases perr with
        | some e => exact List.Forall₂.cons ⟨rfl, hT⟩ (sampleFrame_refl rest)
        | none => exact List.Forall₂.cons ⟨rfl, hT⟩ ih
  · intro g low high s
    induction s with
    | nil => exact List.Forall₂.nil
    | cons kv rest ih =>
      obtain ⟨k, ent⟩ := kv
      cases ent with
      | nonImage v =>
        rw [BoundsTransform.runLoop]
        exact List.Forall₂.cons ⟨rfl, rfl⟩ ih
      | image d =>
        rw [BoundsTransform.runLoop]
        rcases hp : BoundsTransform.processImage g low high d with ⟨d2, perr⟩
        have hT : d.TYPE = d2.TYPE := by
          have := boundsBody_TYPE g low high d
          rw [hp] at this
          exact this.symm
        cases perr with
        | some e => exact List.Forall₂.cons ⟨rfl, hT⟩ (sampleFrame_refl rest)
        | none => exact List.Forall₂.cons ⟨rfl, hT⟩ ih

/-! ## Claim C2 -/

/-- `DATA[0] = r` preserves the length of the data field. -/
lemma DataField.setitem0_len {df df2 : DataField} {r : Tensor}
    (hset : df.setitem0 r = some df2) : df2.len = df.len := by
  cases df with
  | dlist ts =>
    cases ts with
    | nil => simp [DataField.setitem0] at hset
    | cons a tl =>
      simp [DataField.setitem0] at hset
      subst hset
      rfl
  | dtensor t =>
    obtain ⟨dt, sh, buf⟩ := t
    cases sh with
    | nil => simp [DataField.setitem0] at hset
    | cons n rest =>
      by_cases hn : n = 0
      · simp [DataField.setitem0, hn] at hset
      · by_cases hsh : r.shape = rest
        · simp [DataField.setitem0, hn, hsh] at hset
          subst hset
          rfl
        · simp [DataField.setitem0, hn, hsh] at hset

/-- After `DATA[0] = r` with a rank-preserving r, reading index 0 again
yields a tensor of the same rank as the one read before the write. -/
lemma DataField.setitem0_get {df df2 : DataField} {arg r : Tensor}
    (hget : df.getitem0 = some arg) (hset : df.setitem0 r = some df2)
    (hnd : r.ndim = arg.ndim) :
    ∃ t2, df2.getitem0 = some t2 ∧ t2.ndim = arg.ndim := by
  cases df with
  | dlist ts =>
    cases ts with
    | nil => simp [DataField.getitem0] at hget
    | cons a tl =>
      simp [DataField.getitem0] at hget
      simp [DataField.setitem0] at hset
      subst hget
      subst hset
      exact ⟨r, rfl, hnd⟩
  | dtensor t =>
    obtain ⟨dt, sh, buf⟩ := t
    cases sh with
    | nil => simp [DataField.getitem0] at hget
    | cons n rest =>
      by_cases hn : n = 0
      · simp [DataField.getitem0, hn] at hget
      · simp [DataField.getitem0, hn] at hget
        by_cases hsh : r.shape = rest
        · simp [DataField.setitem0, hn, hsh] at hset
          subst hset
          refine ⟨⟨dt, rest, (r.buf ++ buf.drop rest.prod).take rest.prod⟩, ?_, ?_⟩
          · simp [DataField.getitem0, hn]
          · rw [← hget]
            rfl
        · simp [DataField.setitem0, hn, hsh] at hset

/-- A successful Lambda loop body preserves the dimensional invariant. -/
lemma inv4d_processImage {lam : Lambda} {d d2 : ImageDict}
    (h : lam.processImage d = (d2, none)) (hi : d.inv4d = true) : d2.inv4d = true := by
  rcases Lambda.processImage_success_inv h with ⟨-, rfl⟩ |
    ⟨arg, r, df, -, hget, -, -, hnd, hset, rfl⟩
  · exact hi
  · rw [ImageDict.inv4d, Bool.and_eq_true] at hi ⊢
    obtain ⟨hlen, hmat⟩ := hi
    rw [hget] at hmat
    constructor
    · simp only
      rw [DataField.setitem0_len hset]
      exact hlen
    · obtain ⟨t2, hget2, hnd2⟩ := DataField.setitem0_get hget hset hnd
      simp only
      rw [hget2]
      have hm : (arg.ndim == 4) = true := hmat
      show (t2.ndim == 4) = true
      rw [hnd2]
      exact hm

/-- A successful Lambda loop preserves the dimensional invariant over the
whole sample. -/
lemma runLoop_inv4 (lam : Lambda) :
    ∀ s : Sample, (Lambda.runLoop lam s).2 = none → sampleInv4 s = true →
      sampleInv4 (Lambda.runLoop lam s).1 = true := by
  intro s
  induction s with
  | nil => intro _ _; rfl
  | cons kv rest ih =>
    obtain ⟨k, ent⟩ := kv
    cases ent with
    | nonImage v =>
      intro hok hi
      rw [sampleInv4, List.all_cons, Bool.and_eq_true] at hi
      rw [Lambda.runLoop] at hok ⊢
      simp only at hok ⊢
      rw [sampleInv4, List.all_cons, Bool.and_eq_true]
      exact ⟨rfl, ih hok hi.2⟩
    | image d =>
      intro hok hi
      rw [sampleInv4, List.all_cons, Bool.and_eq_true] at hi
      rcases hp : lam.processImage d with ⟨dd2, perr⟩
      cases perr with
      | some e =>
        rw [Lambda.runLoop] at hok
        simp [hp] at hok
      | none =>
        rw [Lambda.runLoop] at hok ⊢
        simp only [hp] at hok ⊢
        rw [sampleInv4, List.all_cons, Bool.and_eq_true]
        exact ⟨inv4d_processImage hp hi.1, ih hok hi.2⟩

/-- A successful bounds loop body always leaves a 4D tensor with channel
size 1 directly in DATA. -/
lemma bounds_processImage_shape {g : NativeImage → List Int → List Int → NativeImage}
    {low high : List Int} {d d2 : ImageDict}
    (h : BoundsTransform.processImage g low high d = (d2, none)) :
    ∃ t : Tensor, d2.DATA = DataField.dtensor t ∧ t.ndim = 4 ∧ t.shape.head? = some 1 := by
  unfold BoundsTransform.processImage at h
  repeat' split at h
  all_goals simp_all
  subst h
  exact ⟨_, rfl, rfl, rfl⟩

/-- A successful bounds loop leaves every image of the sample with a 4D,
channel-1 tensor directly in DATA. -/
lemma bounds_runLoop_shape (g : NativeImage → List Int → List Int → NativeImage)
    (low high : List Int) :
    ∀ s : Sample, (BoundsTransform.runLoop g low high s).2 = none →
      boundsShapeOK (BoundsTransform.runLoop g low high s).1 = true := by
  intro s
  induction s with
  | nil => intro _; rfl
  | cons kv rest ih =>
    obtain ⟨k, ent⟩ := kv
    cases ent with
    | nonImage v =>
      intro hok
      rw [BoundsTransform.runLoop] at hok ⊢
      simp only at hok ⊢
      rw [boundsShapeOK, List.all_cons, Bool.and_eq_true]
      exact ⟨rfl, ih hok⟩
    | image d =>
      intro hok
      rcases hp : BoundsTransform.processImage g low high d with ⟨dd2, perr⟩
      cases perr with
      | some e =>
        rw [BoundsTransform.runLoop] at hok
        simp [hp] at hok
      | none =>
        rw [BoundsTransform.runLoop] at hok ⊢
        simp only [hp] at hok ⊢
        rw [boundsShapeOK, List.all_cons, Bool.and_eq_true]
        obtain ⟨t, hdf, hnd, hhd⟩ := bounds_processImage_shape hp
        refine ⟨?_, ih hok⟩
        simp only [hdf, hnd, hhd]
        simp [Tensor.ndim] at hnd
        simp [hnd, hhd]
    

/-- A user function returning a float32 4D tensor whose leading dimension
is 2: it passes all three Lambda validations. -/
def ceLam : Lambda :=
  ⟨fun _ => PyValue.tensor ⟨DType.float32, [2, 1, 1, 1], [0, 0]⟩, none⟩

/-- A sample satisfying the documented ImageDict data model. -/
def ceSample : Sample :=
  [("img", Entry.image ⟨DataField.dlist [⟨DType.float32, [1, 1, 1, 1], [0]⟩], [], "intensity"⟩)]

/-- Counterexample to claim C2 as stated: this sample satisfies the
documented invariant (DATA a length-1 sequence, DATA[0] 4-dimensional with
channel size 1), Lambda.apply_transform with ceLam raises no error, yet
afterwards the invariant fails: DATA[0] now has leading dimension 2. -/
theorem invariant_not_preserved_cex :
    sampleInvFull ceSample = true
    ∧ (Lambda.runLoop ceLam ceSample).2 = none
    ∧ sampleInvFull (Lambda.runLoop ceLam ceSample).1 = false :=
  ⟨by decide, by decide, by decide⟩

/-- Claim C2 (amended): a successful Lambda run preserves the dimensional
part of the invariant — DATA stays a length-1 container whose element at
index 0 has exactly 4 dimensions — but not the channel size, which follows
the user function; a successful bounds run stores the 4D result tensor
itself in DATA (no longer a length-1 list holding it), and that tensor
always has exactly 4 dimensions with leading channel dimension of size
1. -/
theorem ndim_invariant_amended :
    (∀ (lam : Lambda) (s : Sample), (Lambda.runLoop lam s).2 = none →
      sampleInv4 s = true → sampleInv4 (Lambda.runLoop lam s).1 = true)
    ∧ (∀ (g : NativeImage → List Int → List Int → NativeImage) (low high : List Int)
        (s : Sample), (BoundsTransform.runLoop g low high s).2 = none →
      boundsShapeOK (BoundsTransform.runLoop g low high s).1 = true) :=
  ⟨fun lam s => runLoop_inv4 lam s, fun g low high s => bounds_runLoop_shape g low high s⟩

/-- Identity Lambda for the C2 witness. -/
def lamW2 : Lambda := ⟨fun t => PyValue.tensor t, none⟩

/-- 4D-invariant sample for the Lambda half of the C2 witness. -/
def sampleW2 : Sample :=
  [("mri", Entry.image ⟨DataField.dlist [⟨DType.float32, [1, 1, 1, 1], [0]⟩], [], "intensity"⟩)]

/-- Identity bounds function for the bounds half of the C2 witness. -/
def gIdW : NativeImage → List Int → List Int → NativeImage := fun m _ _ => m

/-- 3D-data sample for the bounds half of the C2 witness. -/
def sampleW2b : Sample :=
  [("mri", Entry.image ⟨DataField.dlist [⟨DType.float32, [1, 1, 1], [0]⟩], [], "intensity"⟩)]

/-- Witness for the amended C2 at concrete samples. -/
theorem ndim_invariant_amended_w :
    sampleInv4 (Lambda.runLoop lamW2 sampleW2).1 = true
    ∧ boundsShapeOK (BoundsTransform.runLoop gIdW [0, 1, 2] [0, 1, 2] sampleW2b).1 = true :=
  ⟨ndim_invariant_amended.1 lamW2 sampleW2 (by decide) (by decide),
    ndim_invariant_amended.2 gIdW [0, 1, 2] [0, 1, 2] sampleW2b (by decide)⟩

/-! ## Claim C9 -/

/-- The sign correction is an involution factor: its square is 1. -/
lemma flipSgn_mul_self (i : Fin 3) : flipSgn i * flipSgn i = 1 := by
  unfold flipSgn
  split <;> norm_num

/-- Axis reversal is an involution. -/
lemma axisRev_axisRev (i : Fin 3) : axisRev (axisRev i) = i := by
  obtain ⟨v, hv⟩ := i
  simp only [axisRev]
  congr 1
  omega

/-- A column with a nonzero entry has positive norm. -/
lemma colNorm_pos {c : Fin 3 → ℝ} (h : ∃ i, c i ≠ 0) : 0 < colNorm c := by
  obtain ⟨i0, hi0⟩ := h
  apply Real.sqrt_pos.mpr
  apply Finset.sum_pos' (fun i _ => sq_nonneg (c i))
  exact ⟨i0, Finset.mem_univ i0, by positivity⟩

/-- Claim C9: converting tensor plus affine to the native representation
and back is the identity on the voxel data, the grid sizes and every
affine entry (hence within the 1e-5 tolerance of the claim), for
geometrically valid inputs — every affine column nonzero one way; positive
spacing and unit direction columns the other way. -/
theorem conversion_round_trip :
    (∀ (t : TensorR) (a : AffineR), (∀ j, ∃ i, a.block i j ≠ 0) →
      (native_to_tensor (tensor_to_native t a)).1.dims = t.dims
      ∧ (native_to_tensor (tensor_to_native t a)).1.vox = t.vox
      ∧ (native_to_tensor (tensor_to_native t a)).2.block = a.block
      ∧ (native_to_tensor (tensor_to_native t a)).2.origin = a.origin
      ∧ ∀ i j, |(native_to_tensor (tensor_to_native t a)).2.block i j - a.block i j|
          ≤ 1 / 100000)
    ∧ (∀ m : NativeR, (∀ j, 0 < m.spacing j) → (∀ j, ∑ i, m.direction i j ^ 2 = 1) →
      (tensor_to_native (native_to_tensor m).1 (native_to_tensor m).2).ndims = m.ndims
      ∧ (tensor_to_native (native_to_tensor m).1 (native_to_tensor m).2).nvox = m.nvox
      ∧ (tensor_to_native (native_to_tensor m).1 (native_to_tensor m).2).spacing = m.spacing
      ∧ (tensor_to_native (native_to_tensor m).1 (native_to_tensor m).2).direction
          = m.direction
      ∧ (tensor_to_native (native_to_tensor m).1 (native_to_tensor m).2).norigin
          = m.norigin) := by
  constructor
  · intro t a h
    have hcn : ∀ j, colNorm (fun k => a.block k j) ≠ 0 :=
      fun j => ne_of_gt (colNorm_pos (h j))
    have hblock : (native_to_tensor (tensor_to_native t a)).2.block = a.block := by
      funext i j
      show flipSgn i * (flipSgn i * (a.block i j / colNorm fun k => a.block k j))
          * colNorm (fun k => a.block k j) = a.block i j
      rw [show flipSgn i * (flipSgn i * (a.block i j / colNorm fun k => a.block k j))
          * colNorm (fun k => a.block k j)
          = (flipSgn i * flipSgn i)
            * (a.block i j / colNorm (fun k => a.block k j)
              * colNorm (fun k => a.block k j)) by ring]
      rw [flipSgn_mul_self, div_mul_cancel₀ _ (hcn j), one_mul]
    refine ⟨?_, ?_, hblock, ?_, ?_⟩
    · funext i
      show t.dims (axisRev (axisRev i)) = t.dims i
      rw [axisRev_axisRev]
    · rfl
    · funext i
      show flipSgn i * (flipSgn i * a.origin i) = a.origin i
      rw [← mul_assoc, flipSgn_mul_self, one_mul]
    · intro i j
      rw [congrFun (congrFun hblock i) j]
      simp
  · intro m hpos hunit
    have hsq : ∀ j, (∑ i, (flipSgn i * m.direction i j * m.spacing j) ^ 2)
        = m.spacing j ^ 2 := by
      intro j
      have hterm : ∀ i : Fin 3, (flipSgn i * m.direction i j * m.spacing j) ^ 2
          = m.direction i j ^ 2 * m.spacing j ^ 2 := by
        intro i
        rw [show (flipSgn i * m.direction i j * m.spacing j) ^ 2
            = (flipSgn i * flipSgn i) * (m.direction i j ^ 2 * m.spacing j ^ 2) by ring]
        rw [flipSgn_mul_self, one_mul]
      rw [Finset.sum_congr rfl fun i _ => hterm i, ← Finset.sum_mul, hunit j, one_mul]
    have hspacing : (tensor_to_native (native_to_tensor m).1
        (native_to_tensor m).2).spacing = m.spacing := by
      funext j
      show colNorm (fun i => flipSgn i * m.direction i j * m.spacing j) = m.spacing j
      rw [colNorm, hsq j, Real.sqrt_sq (hpos j).le]
    refine ⟨?_, rfl, hspacing, ?_, ?_⟩
    · funext i
      show m.ndims (axisRev (axisRev i)) = m.ndims i
      rw [axisRev_axisRev]
    · funext i j
      show flipSgn i * ((flipSgn i * m.direction i j * m.spacing j)
          / colNorm (fun k => flipSgn k * m.direction k j * m.spacing j)) = m.direction i j
      rw [show colNorm (fun k => flipSgn k * m.direction k j * m.spacing j)
          = m.spacing j from congrFun hspacing j]
      rw [mul_div_assoc, div_self (ne_of_gt (hpos j)), mul_one,
        ← mul_assoc, flipSgn_mul_self, one_mul]
    · funext i
      show flipSgn i * (flipSgn i * m.norigin i) = m.norigin i
      rw [← mul_assoc, flipSgn_mul_self, one_mul]

/-- Concrete tensor for the C9 witness: a 1x1x1 grid of zeros. -/
def t0R : TensorR := ⟨fun _ => 1, fun _ _ _ => 0⟩

/-- Concrete affine for the C9 witness: the identity block, zero origin. -/
def a0R : AffineR := ⟨fun i j => if i = j then 1 else 0, fun _ => 0⟩

/-- Concrete native image for the C9 witness: unit spacing, identity
direction, zero origin. -/
def m0R : NativeR := ⟨fun _ => 1, fun _ _ _ => 0, fun _ => 1,
  fun i j => if i = j then 1 else 0, fun _ => 0⟩

/-- Witness for C9: both round trips applied at concrete geometrically
valid inputs. -/
theorem conversion_round_trip_w :
    (native_to_tensor (tensor_to_native t0R a0R)).2.block = a0R.block
    ∧ (tensor_to_native (native_to_tensor m0R).1 (native_to_tensor m0R).2).spacing
        = m0R.spacing :=
  ⟨(conversion_round_trip.1 t0R a0R (fun j => ⟨j, by simp [a0R]⟩)).2.2.1,
    (conversion_round_trip.2 m0R (fun j => by norm_num [m0R])
      (fun j => by fin_cases j <;> simp [m0R, Fin.sum_univ_three])).2.2.1⟩
